import Mathlib

/-!
# Verification of the azure-updates-mcp-server core

A shallow embedding, in Lean 4, of the Sync Engine and Query Engine of the
azure-updates repository, together with theorems settling the frozen claims
about its specification.

Conventions of the embedding:
* SQLite tables become Lean lists; rows become structures.
* ISO-8601 timestamp strings are kept as `String`; the JavaScript string
  comparison `a < b` used by the watermark fold is modelled by Lean's
  lexicographic order on `String` (the two agree on ASCII timestamps).
* `new Date(s).getTime()` is an external parsing routine; it is modelled as an
  explicit function parameter `parseTime : String -> Int` of the sync engine.
* The HTML-to-Markdown converter and the SQLite FTS5 engine are external
  collaborators; they are modelled as function parameters.
* Fallible operations return `Except`; the per-record persistence failure that
  a SQLite constraint can raise is modelled by an oracle
  `persistFails : AzureUpdate -> Bool` in the sync environment.
-/

/-! ## Definitions: data model, sync engine, query engine, and concrete inputs -/

namespace AzureUpdates

/-- One entry of the `update_availabilities` table: an availability ring label
and an optional (month-normalised) date, as in `schema.sql`. -/
structure Availability where
  ring : String
  date : Option String
deriving DecidableEq, Repr

/-- A record as fetched from the remote feed (`AzureUpdate` in
`src/models/azure-update.ts`, reconstructed from its uses in
`sync.service.ts`): scalar fields plus the tag/category/product sets and the
availability list. -/
structure AzureUpdate where
  id : String
  title : String
  description : Option String
  status : Option String
  locale : Option String
  created : String
  modified : String
  tags : List String
  productCategories : List String
  products : List String
  availabilities : List Availability
deriving DecidableEq, Repr

/-- A row of the `azure_updates` table (the column list of `schema.sql` and of
the `upsertUpdate` call in `sync.service.ts`). -/
structure StoredUpdate where
  id : String
  title : String
  description_html : String
  description_md : Option String
  status : Option String
  locale : Option String
  created : String
  modified : String
deriving DecidableEq, Repr

/-- The `sync_status` column of the singleton `sync_checkpoints` row:
`CHECK (sync_status IN ('success', 'failed', 'in_progress'))`. -/
inductive SyncStatus where
  | success
  | failed
  | inProgress
deriving DecidableEq, Repr

/-- The singleton `sync_checkpoints` row (`id = 1`), per `schema.sql`. -/
structure SyncCheckpoint where
  lastSync : String
  syncStatus : SyncStatus
  recordCount : Nat
  durationMs : Option Nat
  errorMessage : Option String
deriving DecidableEq, Repr

/-- The database state: the `azure_updates` table, the three association
tables, the `update_availabilities` table, and the singleton checkpoint row.
Association tables are lists of `(update_id, value)` pairs in insertion
(rowid) order. -/
structure Db where
  updates : List StoredUpdate
  tags : List (String × String)
  categories : List (String × String)
  products : List (String × String)
  availabilities : List (String × Availability)
  checkpoint : SyncCheckpoint
deriving DecidableEq, Repr

/-- Modelled from the spec: `src/database/queries.ts` is not under `src/`.
`startSync` is the concurrency guard of spec section 4.1 step 1 — atomically
transition the checkpoint status to `in_progress` only if it is not already
`in_progress` — with the boolean result asserted by
`tests/unit/database/queries.test.ts` ("should prevent concurrent syncs").
Returns the new state and whether the lock was acquired. -/
def startSync (db : Db) : Db × Bool :=
  if db.checkpoint.syncStatus = SyncStatus.inProgress then
    (db, false)
  else
    ({ db with checkpoint := { db.checkpoint with syncStatus := SyncStatus.inProgress } }, true)

/-- Modelled from the spec: `src/database/queries.ts` is not under `src/`.
`completeSyncSuccess db lastSync recordCount durationMs` advances the
checkpoint to `success` with the given watermark, record count and duration
(spec section 4.1 step 8; field effects asserted by
`tests/unit/database/queries.test.ts` "should complete sync successfully"). -/
def completeSyncSuccess (db : Db) (lastSync : String) (recordCount : Nat) (durationMs : Nat) : Db :=
  { db with checkpoint :=
      { lastSync := lastSync
        syncStatus := SyncStatus.success
        recordCount := recordCount
        durationMs := some durationMs
        errorMessage := none } }

/-- Modelled from the spec: `src/database/queries.ts` is not under `src/`.
`completeSyncFailure` marks the checkpoint `failed` with the error message and
leaves the watermark unadvanced (spec section 4.1 step 8: "the watermark left
unadvanced"; field effects asserted by `tests/unit/database/queries.test.ts`
"should mark sync as failed"). -/
def completeSyncFailure (db : Db) (errorMessage : String) : Db :=
  { db with checkpoint :=
      { db.checkpoint with
        syncStatus := SyncStatus.failed
        errorMessage := some errorMessage } }

/-- Modelled from the spec: `src/database/queries.ts` is not under `src/`.
`getUpdateCount` is `SELECT COUNT(*) FROM azure_updates`. -/
def getUpdateCount (db : Db) : Nat :=
  db.updates.length

/-- Modelled from the spec: `src/database/queries.ts` is not under `src/`.
`upsertUpdate` inserts the row or fully overwrites the existing row with the
same primary key (spec section 3: "mutated (fully overwritten, scalar fields)
on every later sync"). -/
def upsertUpdate (db : Db) (row : StoredUpdate) : Db :=
  if db.updates.any (fun r => r.id = row.id) then
    { db with updates := db.updates.map (fun r => if r.id = row.id then row else r) }
  else
    { db with updates := db.updates ++ [row] }

/-- Modelled from the spec: `src/database/queries.ts` is not under `src/`.
`replaceUpdateTags` fully replaces (delete-then-insert) the tag set of one
update (spec section 3; asserted by `tests/unit/database/queries.test.ts`
"should replace existing tags"). -/
def replaceUpdateTags (db : Db) (updateId : String) (tags : List String) : Db :=
  { db with tags := db.tags.filter (fun p => p.1 ≠ updateId) ++ tags.map (fun t => (updateId, t)) }

/-- Modelled from the spec: `src/database/queries.ts` is not under `src/`.
`replaceUpdateCategories`, as `replaceUpdateTags` for the category set. -/
def replaceUpdateCategories (db : Db) (updateId : String) (categories : List String) : Db :=
  { db with categories :=
      db.categories.filter (fun p => p.1 ≠ updateId) ++ categories.map (fun c => (updateId, c)) }

/-- Modelled from the spec: `src/database/queries.ts` is not under `src/`.
`replaceUpdateProducts`, as `replaceUpdateTags` for the product set. -/
def replaceUpdateProducts (db : Db) (updateId : String) (products : List String) : Db :=
  { db with products :=
      db.products.filter (fun p => p.1 ≠ updateId) ++ products.map (fun pr => (updateId, pr)) }

/-- Modelled from the spec: `src/database/queries.ts` is not under `src/`.
`replaceUpdateAvailabilities`, as `replaceUpdateTags` for the availability
list. -/
def replaceUpdateAvailabilities (db : Db) (updateId : String) (avs : List Availability) : Db :=
  { db with availabilities :=
      db.availabilities.filter (fun p => p.1 ≠ updateId) ++ avs.map (fun a => (updateId, a)) }

/-- The ids present in the `azure_updates` table. -/
def ids (db : Db) : List String :=
  db.updates.map (fun r => r.id)

/-- `INITIAL_SYNC_CHECKPOINT` in `sync.service.ts`: the epoch sentinel. -/
def INITIAL_SYNC_CHECKPOINT : String := "1970-01-01T00:00:00.0000000Z"

/-- The environment of one `performSync` run: the outcome of the external
fetch, the optional retention floor, the external timestamp parser
(`new Date(s).getTime()`), the external HTML-to-Markdown converter, the
per-record persistence-failure oracle, and the wall clock reading
(`new Date().toISOString()`). -/
structure SyncEnv where
  fetch : Except String (List AzureUpdate)
  retentionStartDate : Option String
  parseTime : String → Int
  convert : String → Option String
  persistFails : AzureUpdate → Bool
  now : String

/-- `max(new Date(u.modified).getTime(), new Date(u.created).getTime())` —
the `relevantTime` of `filterUpdatesByRetentionDate`. -/
def relevantTime (parseTime : String → Int) (u : AzureUpdate) : Int :=
  max (parseTime u.modified) (parseTime u.created)

/-- The `cutoffTime` of `filterUpdatesByRetentionDate`:
`new Date(retentionStartDate + 'T00:00:00.000Z').getTime()`. -/
def retentionCutoff (parseTime : String → Int) (retentionStartDate : String) : Int :=
  parseTime (retentionStartDate ++ "T00:00:00.000Z")

/-- `filterUpdatesByRetentionDate` of `sync.service.ts`: keep the updates
whose `relevantTime` is at least the cutoff. -/
def filterUpdatesByRetentionDate (parseTime : String → Int) (updates : List AzureUpdate)
    (retentionStartDate : String) : List AzureUpdate :=
  updates.filter
    (fun u => decide (retentionCutoff parseTime retentionStartDate ≤ relevantTime parseTime u))

/-- The records of a fetched batch that survive the local retention filter
(`const updates = retentionStartDate ? filterUpdatesByRetentionDate(...) : allUpdates`
in `performSync`). -/
def retentionSurvivors (env : SyncEnv) (allUpdates : List AzureUpdate) : List AzureUpdate :=
  match env.retentionStartDate with
  | some r => filterUpdatesByRetentionDate env.parseTime allUpdates r
  | none => allUpdates

/-- The `SyncResult` interface of `sync.service.ts`. The model fixes
`durationMs` to `0` (wall-clock durations are outside the embedding). -/
structure SyncResult where
  success : Bool
  recordsProcessed : Nat
  recordsInserted : Nat
  recordsUpdated : Nat
  durationMs : Nat
  error : Option String
deriving DecidableEq, Repr

/-- The row passed to `upsertUpdate` by the loop body of
`syncUpdatesInTransaction`, with `update.description ? convert(...) : null`
and `update.description || ''` following JavaScript truthiness on the empty
string. -/
def syncedRow (env : SyncEnv) (u : AzureUpdate) : StoredUpdate :=
  { id := u.id
    title := u.title
    description_html := u.description.getD ""
    description_md :=
      match u.description with
      | none => none
      | some d => if d = "" then none else env.convert d
    status := u.status
    locale := u.locale
    created := u.created
    modified := u.modified }

/-- The per-record body of the sync transaction: convert the description,
upsert the row, then fully replace the tag, category, product and
availability sets of that record — the loop body of
`syncUpdatesInTransaction`. -/
def applyRecord (env : SyncEnv) (db : Db) (u : AzureUpdate) : Db :=
  replaceUpdateAvailabilities
    (replaceUpdateProducts
      (replaceUpdateCategories
        (replaceUpdateTags (upsertUpdate db (syncedRow env u)) u.id u.tags)
        u.id u.productCategories)
      u.id u.products)
    u.id u.availabilities

/-- The loop of `syncUpdatesInTransaction`: process records in order,
counting them; the first record whose persistence fails throws
`Failed to sync update <id>`, which aborts the whole transaction. -/
def syncLoop (env : SyncEnv) (db : Db) (processed : Nat) :
    List AzureUpdate → Except String (Db × Nat)
  | [] => Except.ok (db, processed)
  | u :: rest =>
    if env.persistFails u then
      Except.error ("Failed to sync update " ++ u.id)
    else
      syncLoop env (applyRecord env db u) (processed + 1) rest

/-- `syncUpdatesInTransaction` of `sync.service.ts`: run the loop inside one
transaction. `Except.error` models the rollback — the caller keeps the
pre-transaction state. -/
def syncUpdatesInTransaction (env : SyncEnv) (db : Db) (updates : List AzureUpdate) :
    Except String (Db × Nat) :=
  syncLoop env db 0 updates

/-- The outcome of a `performSync` run: the returned `SyncResult`, the final
database state, and whether the remote feed fetch was ever invoked. -/
structure SyncRun where
  result : SyncResult
  db : Db
  fetchCalled : Bool

/-- The watermark value read at the start of a run:
`checkpoint?.lastSync || INITIAL_SYNC_CHECKPOINT` (JavaScript `||` maps the
empty string to the sentinel; the checkpoint row always exists). -/
def effectiveLastSync (db : Db) : String :=
  if db.checkpoint.lastSync = "" then INITIAL_SYNC_CHECKPOINT else db.checkpoint.lastSync

/-- The watermark fold of `performSync`:
`updates.reduce((latest, u) => u.modified > latest ? u.modified : latest, lastSync)`.
The JavaScript string comparison is the lexicographic order on the character
lists. -/
def latestModified (lastSync : String) (updates : List AzureUpdate) : String :=
  updates.foldl
    (fun latest u => if latest.data < u.modified.data then u.modified else latest) lastSync

/-- `performSync` of `sync.service.ts`: concurrency guard, fetch, retention
filter, empty-batch fast path, transactional persistence, checkpoint
advancement, and the catch-all failure branch. -/
def performSync (env : SyncEnv) (db : Db) : SyncRun :=
  match startSync db with
  | (db1, locked) =>
    if locked = false then
      { result :=
          { success := false
            recordsProcessed := 0
            recordsInserted := 0
            recordsUpdated := 0
            durationMs := 0
            error := some "Sync already in progress" }
        db := db1
        fetchCalled := false }
    else
      let lastSync := effectiveLastSync db1
      let recordCountBefore := getUpdateCount db1
      match env.fetch with
      | Except.error e =>
        { result :=
            { success := false
              recordsProcessed := 0
              recordsInserted := 0
              recordsUpdated := 0
              durationMs := 0
              error := some e }
          db := completeSyncFailure db1 e
          fetchCalled := true }
      | Except.ok allUpdates =>
        let updates := retentionSurvivors env allUpdates
        if updates.length = 0 then
          { result :=
              { success := true
                recordsProcessed := 0
                recordsInserted := 0
                recordsUpdated := 0
                durationMs := 0
                error := none }
            db := completeSyncSuccess db1 env.now recordCountBefore 0
            fetchCalled := true }
        else
          match syncUpdatesInTransaction env db1 updates with
          | Except.error msg =>
            { result :=
                { success := false
                  recordsProcessed := 0
                  recordsInserted := 0
                  recordsUpdated := 0
                  durationMs := 0
                  error := some msg }
              db := completeSyncFailure db1 msg
              fetchCalled := true }
          | Except.ok (db2, processed) =>
            let recordCountAfter := getUpdateCount db2
            let recordsInserted := recordCountAfter - recordCountBefore
            let recordsUpdated := processed - recordsInserted
            { result :=
                { success := true
                  recordsProcessed := processed
                  recordsInserted := recordsInserted
                  recordsUpdated := recordsUpdated
                  durationMs := 0
                  error := none }
              db := completeSyncSuccess db2 (latestModified lastSync updates) recordCountAfter 0
              fetchCalled := true }

/-- A checkpoint in `success` state with the given watermark and count. -/
def chkSuccess (last : String) (count : Nat) : SyncCheckpoint :=
  { lastSync := last
    syncStatus := SyncStatus.success
    recordCount := count
    durationMs := none
    errorMessage := none }

/-- A database state holding only the given checkpoint. -/
def emptyDb (chk : SyncCheckpoint) : Db :=
  { updates := []
    tags := []
    categories := []
    products := []
    availabilities := []
    checkpoint := chk }

/-- A sync environment with the given fetch outcome, retention floor and
clock, a trivial timestamp parser and converter, and no persistence
failures. -/
def plainEnv (fetch : Except String (List AzureUpdate)) (retention : Option String)
    (now : String) : SyncEnv :=
  { fetch := fetch
    retentionStartDate := retention
    parseTime := fun _ => 0
    convert := fun _ => none
    persistFails := fun _ => false
    now := now }

/-- A database whose checkpoint is `in_progress`. -/
def dbInProgress : Db :=
  emptyDb
    { lastSync := "2025-01-01T00:00:00.0000000Z"
      syncStatus := SyncStatus.inProgress
      recordCount := 0
      durationMs := none
      errorMessage := none }

/-- A concrete environment whose fetch would succeed with an empty batch. -/
def envBasic : SyncEnv :=
  plainEnv (Except.ok []) none "2025-06-01T00:00:00.000Z"

/-- A database whose checkpoint records a previous successful watermark. -/
def dbPrevWatermark : Db :=
  emptyDb (chkSuccess "2025-01-01T00:00:00.0000000Z" 0)

/-- A fetched record with the given id, with `created = modified` equal to the
given timestamp and empty association sets. -/
def mkUpdate (idv modv : String) : AzureUpdate :=
  { id := idv
    title := "t"
    description := none
    status := none
    locale := none
    created := modv
    modified := modv
    tags := []
    productCategories := []
    products := []
    availabilities := [] }

/-- An environment fetching three records of which the second fails to
persist. -/
def envPoisonBatch : SyncEnv :=
  { fetch := Except.ok
      [mkUpdate "r1" "2025-02-01T00:00:00.0000000Z",
       mkUpdate "r2" "2025-03-01T00:00:00.0000000Z",
       mkUpdate "r3" "2025-04-01T00:00:00.0000000Z"]
    retentionStartDate := none
    parseTime := fun _ => 0
    convert := fun _ => none
    persistFails := fun u => u.id = "r2"
    now := "2025-06-01T00:00:00.000Z" }

/-- A database whose checkpoint watermark lies in the future of the clock. -/
def dbFutureWatermark : Db :=
  emptyDb (chkSuccess "2030-01-01T00:00:00.0000000Z" 0)

/-- An environment whose clock reads a time before that watermark and whose
fetch returns an empty batch. -/
def envPastClock : SyncEnv :=
  plainEnv (Except.ok []) none "1999-01-01T00:00:00.000Z"

/-- An environment fetching one record, with no failures. -/
def envOneRecord : SyncEnv :=
  plainEnv (Except.ok [mkUpdate "r1" "2025-02-01T00:00:00.0000000Z"]) none
    "2025-06-01T00:00:00.000Z"

/-- A stored row of an old (pre-retention) record already present in the
store from an earlier, unfiltered sync. -/
def oldStored : StoredUpdate :=
  { id := "old-update"
    title := "Old Update"
    description_html := ""
    description_md := none
    status := none
    locale := none
    created := "2019-01-01T00:00:00Z"
    modified := "2019-06-01T00:00:00Z" }

/-- A database already containing the old record. -/
def dbWithOld : Db :=
  { updates := [oldStored]
    tags := []
    categories := []
    products := []
    availabilities := []
    checkpoint := chkSuccess "2025-01-01T00:00:00.0000000Z" 1 }

/-- A concrete timestamp parser placing the retention cutoff above the old
record's timestamps and below the new record's. -/
def parseTimeC8 : String → Int := fun s =>
  if s = "2022-01-01T00:00:00.000Z" then 500
  else if s = "2023-06-01T00:00:00Z" then 900
  else 100

/-- An environment re-fetching the old record under a retention floor. -/
def envRefetchOld : SyncEnv :=
  { fetch := Except.ok [mkUpdate "old-update" "2019-06-01T00:00:00Z"]
    retentionStartDate := some "2022-01-01"
    parseTime := parseTimeC8
    convert := fun _ => none
    persistFails := fun _ => false
    now := "2025-06-01T00:00:00.000Z" }

/-- An environment fetching one pre-floor record and one post-floor record,
against an empty store. -/
def envMixedBatch : SyncEnv :=
  { fetch := Except.ok
      [mkUpdate "old-update" "2019-06-01T00:00:00Z",
       mkUpdate "new-update" "2023-06-01T00:00:00Z"]
    retentionStartDate := some "2022-01-01"
    parseTime := parseTimeC8
    convert := fun _ => none
    persistFails := fun _ => false
    now := "2025-06-01T00:00:00.000Z" }

/-- SQLite TEXT comparison `a <= b` under the default BINARY collation,
modelled as the lexicographic order on the character lists. -/
def sqlLe (a b : String) : Bool :=
  decide (a.data ≤ b.data)

/-- A `if (filters.x)` guard on an optional string filter: JavaScript
truthiness skips the clause when the field is `undefined` or the empty
string. -/
def optClause (o : Option String) (k : String → Bool) : Bool :=
  match o with
  | none => true
  | some s => if s = "" then true else k s

/-- One step of a stable insertion sort: the model of a SQLite `ORDER BY`
result for a `le` comparator (SQLite leaves tie order unspecified; the model
determinises it to input order). -/
def insertLe {α : Type} (le : α → α → Bool) (x : α) : List α → List α
  | [] => [x]
  | y :: ys => if le y x then y :: insertLe le x ys else x :: y :: ys

/-- Stable insertion sort by a boolean comparator. -/
def sortRowsBy {α : Type} (le : α → α → Bool) : List α → List α
  | [] => []
  | x :: xs => insertLe le x (sortRowsBy le xs)

end AzureUpdates

namespace AzureUpdates.SearchService

/-- `DEFAULT_LIMIT` of `search.service.ts`. -/
def DEFAULT_LIMIT : Nat := 20

/-- `MAX_LIMIT` of `search.service.ts`. -/
def MAX_LIMIT : Nat := 100

/-- The filter object reaching the search service. The fields are the union
of those declared in `src/models/search-query.ts` and those read by the two
search-service versions: TypeScript objects are structurally typed at run
time, so a field the producer never set simply reads as `undefined`
(here `none`). -/
structure SearchFilters where
  status : Option String := none
  availabilityRing : Option String := none
  modifiedFrom : Option String := none
  modifiedTo : Option String := none
  retirementFrom : Option String := none
  retirementTo : Option String := none
  dateFrom : Option String := none
  dateTo : Option String := none
  retirementDateFrom : Option String := none
  retirementDateTo : Option String := none
  tags : Option (List String) := none
  products : Option (List String) := none
  productCategories : Option (List String) := none
deriving DecidableEq, Repr

/-- The `SearchQuery` reaching `searchUpdates`. -/
structure SearchQuery where
  query : Option String := none
  filters : Option SearchFilters := none
  sortBy : Option String := none
  limit : Option Nat := none
  offset : Option Nat := none
deriving Repr

/-- The external SQLite FTS5 engine, as an oracle: whether a row's indexed
text matches a sanitized MATCH expression, and its BM25 `rank` for it. -/
structure FtsEngine where
  ftsMatch : String → StoredUpdate → Bool
  ftsRank : String → StoredUpdate → Int

/-- The characters removed by `sanitizeFtsQuery`'s first replace:
the FTS5 operators `( ) { } [ ] ^ ~ * :`. -/
def isFtsSpecial (c : Char) : Bool :=
  c = '(' || c = ')' || c = '\x7b' || c = '\x7d' || c = '[' || c = ']' ||
  c = '^' || c = '~' || c = '*' || c = ':'

/-- The whitespace class of the JavaScript `\s` used by the collapse, and of
`trim`, restricted to the four ASCII whitespace characters (the embedding's
inputs contain no exotic Unicode spaces). -/
def isJsWs (c : Char) : Bool :=
  c = ' ' || c = '\t' || c = '\n' || c = '\r'

/-- `.replace(/[(){}[\]^~*:]/g, ' ')`: each FTS5 operator becomes a space. -/
def stripSpecialChars (l : List Char) : List Char :=
  l.map (fun c => if isFtsSpecial c then ' ' else c)

/-- `.replace(/[""]/g, '"')` of the source, whose character class holds only
the straight double quote — a no-op replace, kept for fidelity. -/
def normalizeQuotes (l : List Char) : List Char :=
  l.map (fun c => if c = '"' then '"' else c)

/-- Worker for `.replace(/\s+/g, ' ')`: the flag says whether the previous
character was part of a whitespace run already emitted as one space. -/
def collapseWsGo : Bool → List Char → List Char
  | _, [] => []
  | prevWs, c :: cs =>
    if isJsWs c then
      if prevWs then collapseWsGo true cs else ' ' :: collapseWsGo true cs
    else c :: collapseWsGo false cs

/-- `.replace(/\s+/g, ' ')`: every whitespace run becomes a single space. -/
def collapseWs (l : List Char) : List Char :=
  collapseWsGo false l

/-- `.trim()`: strip whitespace from both ends. -/
def trimJs (l : List Char) : List Char :=
  ((l.dropWhile isJsWs).reverse.dropWhile isJsWs).reverse

/-- `.split(' ')` with JavaScript semantics: splitting the empty string gives
one empty piece, and every separator ends a piece. -/
def splitOnSpace : List Char → List (List Char)
  | [] => [[]]
  | c :: cs =>
    if c = ' ' then [] :: splitOnSpace cs
    else
      match splitOnSpace cs with
      | w :: ws => (c :: w) :: ws
      | [] => [[c]]

/-- `word.replace(/"/g, '""')`: double every double quote inside a term
(FTS5 string escaping). -/
def escapeQuotes (w : List Char) : List Char :=
  w.flatMap (fun c => if c = '"' then ['"', '"'] else [c])

/-- `"${escaped}"*`: the quoted prefix-match token built for one term. -/
def prefixToken (w : List Char) : List Char :=
  '"' :: escapeQuotes w ++ ['"', '*']

/-- The `' OR '` joiner. -/
def orSep : List Char := [' ', 'O', 'R', ' ']

/-- `sanitizeFtsQuery` of `search.service.ts`: strip FTS5 operators to
spaces, normalize quotes, collapse whitespace, trim, split on single spaces,
drop empty words, turn each word into a quoted prefix token, and join the
tokens with `OR`. -/
def sanitizeFtsQuery (q : String) : String :=
  let sanitized := trimJs (collapseWs (normalizeQuotes (stripSpecialChars q.data)))
  let words := (splitOnSpace sanitized).filter (fun w => decide (0 < w.length))
  String.mk (List.intercalate orSep (words.map prefixToken))

/-- The conjunction of the WHERE clauses built by `buildFilterClauses` of the
current `search.service.ts`, as a predicate on a row: status equality, an
availability-ring EXISTS, the `modified` range (read from `dateFrom`/`dateTo`),
and the two Retirement-ring EXISTS range clauses (read from
`retirementDateFrom`/`retirementDateTo`; a NULL `ua.date` never satisfies a
SQL comparison). The tag/product/category array filters have no clause in
this version. -/
def buildFilterClauses (db : Db) (filters : Option SearchFilters) (row : StoredUpdate) : Bool :=
  match filters with
  | none => true
  | some f =>
    optClause f.status (fun s => decide (row.status = some s)) &&
    optClause f.availabilityRing
      (fun ring => db.availabilities.any (fun p => decide (p.1 = row.id) && decide (p.2.ring = ring))) &&
    optClause f.dateFrom (fun d => sqlLe d row.modified) &&
    optClause f.dateTo (fun d => sqlLe row.modified d) &&
    optClause f.retirementDateFrom
      (fun d => db.availabilities.any (fun p =>
        decide (p.1 = row.id) && decide (p.2.ring = "Retirement") &&
          (match p.2.date with
           | some dd => sqlLe d dd
           | none => false))) &&
    optClause f.retirementDateTo
      (fun d => db.availabilities.any (fun p =>
        decide (p.1 = row.id) && decide (p.2.ring = "Retirement") &&
          (match p.2.date with
           | some dd => sqlLe dd d
           | none => false)))

/-- `getRetirementDateSubquery`: the `date` of the first (`LIMIT 1`, rowid
order) Retirement-ring availability row of the record, or SQL NULL. -/
def getRetirementDateSubquery (db : Db) (row : StoredUpdate) : Option String :=
  ((db.availabilities.filter
      (fun p => decide (p.1 = row.id) && decide (p.2.ring = "Retirement"))).head?).bind
    (fun p => p.2.date)

/-- The ORDER BY clauses `buildOrderByClause` can emit, one constructor per
SQL string. -/
inductive SortSpec where
  | relevanceThenModified
  | modifiedDesc
  | modifiedAsc
  | createdDesc
  | createdAsc
  | retirementAsc
  | retirementDesc
deriving DecidableEq, Repr

/-- `getDefaultOrderBy`: `fts.rank, modified DESC` under a keyword search,
otherwise `modified DESC`. -/
def getDefaultOrderBy (hasKeywordSearch : Bool) : SortSpec :=
  if hasKeywordSearch then SortSpec.relevanceThenModified else SortSpec.modifiedDesc

/-- The `sortMap` record of `buildOrderByClause`, keyed exactly as in the
source. -/
def sortMap : List (String × SortSpec) :=
  [("modified:desc", SortSpec.modifiedDesc),
   ("modified:asc", SortSpec.modifiedAsc),
   ("created:desc", SortSpec.createdDesc),
   ("created:asc", SortSpec.createdAsc),
   ("retirementDate:asc", SortSpec.retirementAsc),
   ("retirementDate:desc", SortSpec.retirementDesc)]

/-- `buildOrderByClause`: the default for no/blank/`relevance` sort, else
`sortMap[sortBy] ?? default`. -/
def buildOrderByClause (sortBy : Option String) (hasKeywordSearch : Bool) : SortSpec :=
  match sortBy with
  | none => getDefaultOrderBy hasKeywordSearch
  | some s =>
    if s = "" ∨ s = "relevance" then getDefaultOrderBy hasKeywordSearch
    else (sortMap.lookup s).getD (getDefaultOrderBy hasKeywordSearch)

/-- The row comparator denoted by each ORDER BY clause. `fts.rank` ascends
(smaller BM25 rank = more relevant); a SQL NULL sort key is smaller than
every value, hence first under `ASC` and last under `DESC`. -/
def rowLe (eng : FtsEngine) (ftsQuery : String) (db : Db) :
    SortSpec → StoredUpdate → StoredUpdate → Bool
  | SortSpec.relevanceThenModified => fun a b =>
    decide (eng.ftsRank ftsQuery a < eng.ftsRank ftsQuery b) ||
      (decide (eng.ftsRank ftsQuery a = eng.ftsRank ftsQuery b) && sqlLe b.modified a.modified)
  | SortSpec.modifiedDesc => fun a b => sqlLe b.modified a.modified
  | SortSpec.modifiedAsc => fun a b => sqlLe a.modified b.modified
  | SortSpec.createdDesc => fun a b => sqlLe b.created a.created
  | SortSpec.createdAsc => fun a b => sqlLe a.created b.created
  | SortSpec.retirementAsc => fun a b =>
    match getRetirementDateSubquery db a, getRetirementDateSubquery db b with
    | none, _ => true
    | some _, none => false
    | some x, some y => sqlLe x y
  | SortSpec.retirementDesc => fun a b =>
    match getRetirementDateSubquery db a, getRetirementDateSubquery db b with
    | _, none => true
    | none, some _ => false
    | some x, some y => sqlLe y x

/-- Execute an ORDER BY clause on a row list. -/
def applyOrder (eng : FtsEngine) (ftsQuery : String) (db : Db) (spec : SortSpec)
    (rows : List StoredUpdate) : List StoredUpdate :=
  sortRowsBy (rowLe eng ftsQuery db spec) rows

/-- `keyword && keyword.trim() !== ''`: whether the request is a keyword
search. -/
def hasKeyword (q : SearchQuery) : Bool :=
  match q.query with
  | none => false
  | some k => decide (k.trim ≠ "")

/-- The shared WHERE predicate of the page query and the count query: the
FTS5 MATCH joined with the filter clauses under a keyword search, the filter
clauses alone otherwise. -/
def rowMatchesQuery (eng : FtsEngine) (db : Db) (q : SearchQuery) (row : StoredUpdate) : Bool :=
  if hasKeyword q then
    eng.ftsMatch (sanitizeFtsQuery (q.query.getD "")) row && buildFilterClauses db q.filters row
  else
    buildFilterClauses db q.filters row

/-- The metadata block of a search response. -/
structure SearchMetadata where
  totalResults : Nat
  returnedResults : Nat
  limit : Nat
  offset : Nat
  hasMore : Bool
  queryTime : Nat
deriving DecidableEq, Repr

/-- A search response: the page of rows and the metadata. -/
structure SearchResponse where
  results : List StoredUpdate
  metadata : SearchMetadata
deriving DecidableEq, Repr

/-- `createSearchResponse` of `search.service.ts`:
`hasMore = totalResults > offset + results.length`. -/
def createSearchResponse (results : List StoredUpdate) (totalResults limit offset queryTime : Nat) :
    SearchResponse :=
  { results := results
    metadata :=
      { totalResults := totalResults
        returnedResults := results.length
        limit := limit
        offset := offset
        hasMore := decide (offset + results.length < totalResults)
        queryTime := queryTime } }

/-- `searchUpdates` of the current `search.service.ts`: clamp the limit with
`min(query.limit ?? DEFAULT_LIMIT, MAX_LIMIT)`, default the offset to `0`,
run the page query (predicate, ORDER BY, `LIMIT ? OFFSET ?`) and the count
query over the identical predicate, and assemble the response. -/
def searchUpdates (eng : FtsEngine) (db : Db) (q : SearchQuery) : SearchResponse :=
  let limit := min (q.limit.getD DEFAULT_LIMIT) MAX_LIMIT
  let offset := q.offset.getD 0
  let ftsQuery := if hasKeyword q then sanitizeFtsQuery (q.query.getD "") else ""
  let matching := db.updates.filter (rowMatchesQuery eng db q)
  let ordered := applyOrder eng ftsQuery db (buildOrderByClause q.sortBy (hasKeyword q)) matching
  let page := (ordered.drop offset).take limit
  let total := (db.updates.filter (rowMatchesQuery eng db q)).length
  createSearchResponse page total limit offset 0

end AzureUpdates.SearchService

namespace AzureUpdates.LegacySearchService

/-- The predicate denoted by the SQL that `buildExistsClause` of the earlier
search service generates: one `EXISTS (SELECT 1 FROM <assoc> WHERE update_id =
au.id AND <column> = ?)` per value, joined with `OR`. -/
def buildExistsClause (assoc : List (String × String)) (rowId : String)
    (values : List String) : Bool :=
  values.any (fun v => assoc.any (fun p => decide (p.1 = rowId) && decide (p.2 = v)))

/-- The conjunction of the WHERE clauses built by `buildFilterClauses` of the
earlier search service: the three array filters via `buildExistsClause`, then
status, availability ring and the `modified` range. -/
def buildFilterClauses (db : Db) (filters : Option SearchService.SearchFilters)
    (row : StoredUpdate) : Bool :=
  match filters with
  | none => true
  | some f =>
    (match f.tags with
     | none => true
     | some ts => if 0 < ts.length then buildExistsClause db.tags row.id ts else true) &&
    (match f.productCategories with
     | none => true
     | some cs => if 0 < cs.length then buildExistsClause db.categories row.id cs else true) &&
    (match f.products with
     | none => true
     | some ps => if 0 < ps.length then buildExistsClause db.products row.id ps else true) &&
    optClause f.status (fun s => decide (row.status = some s)) &&
    optClause f.availabilityRing
      (fun ring => db.availabilities.any (fun p => decide (p.1 = row.id) && decide (p.2.ring = ring))) &&
    optClause f.dateFrom (fun d => sqlLe d row.modified) &&
    optClause f.dateTo (fun d => sqlLe row.modified d)

end AzureUpdates.LegacySearchService

namespace AzureUpdates.SearchTool

/-- `validSortOptions` of `validateSortBy` in the tool. -/
def validSortOptions : List String :=
  ["modified:desc", "modified:asc", "created:desc", "created:asc",
   "retirement:asc", "retirement:desc"]

/-- `validateSortBy` on a string input: the list of validation errors it
appends (empty means the value passes). -/
def validateSortBy (sortBy : String) : List String :=
  if validSortOptions.contains sortBy then []
  else ["sortBy must be one of: modified:desc, modified:asc, created:desc, created:asc, retirement:asc, retirement:desc"]

end AzureUpdates.SearchTool

namespace AzureUpdates

/-- The stored row of the record tagged `Security` and `Compliance`. -/
def taggedRow : StoredUpdate :=
  { id := "u1"
    title := "Update 1"
    description_html := ""
    description_md := none
    status := some "Active"
    locale := none
    created := "2025-01-01T00:00:00Z"
    modified := "2025-01-02T00:00:00Z" }

/-- A store holding that record with its two tag rows. -/
def dbTagged : Db :=
  { updates := [taggedRow]
    tags := [("u1", "Security"), ("u1", "Compliance")]
    categories := []
    products := []
    availabilities := []
    checkpoint := chkSuccess "2025-01-01T00:00:00.0000000Z" 1 }

/-- An FTS engine oracle that matches nothing (no claim exercises the keyword
path). -/
def noFts : SearchService.FtsEngine :=
  { ftsMatch := fun _ _ => false
    ftsRank := fun _ _ => 0 }

/-- The filter `{tags: ["Security"]}`. -/
def filterSecurity : SearchService.SearchFilters :=
  { tags := some ["Security"] }

/-- The filter `{tags: ["Security", "Pricing"]}`. -/
def filterSecurityPricing : SearchService.SearchFilters :=
  { tags := some ["Security", "Pricing"] }

/-- A record retiring 2026-03, with the older `modified` timestamp. -/
def rowRetireEarly : StoredUpdate :=
  { id := "retire-1"
    title := "Service A Retirement"
    description_html := ""
    description_md := none
    status := some "Active"
    locale := none
    created := "2025-01-01T00:00:00Z"
    modified := "2025-01-10T00:00:00Z" }

/-- A record retiring 2026-06, with the newer `modified` timestamp. -/
def rowRetireLate : StoredUpdate :=
  { id := "retire-2"
    title := "Service B Retirement"
    description_html := ""
    description_md := none
    status := some "Active"
    locale := none
    created := "2025-01-01T00:00:00Z"
    modified := "2025-01-15T00:00:00Z" }

/-- A store with the two retiring records and their Retirement-ring rows. -/
def dbRetire : Db :=
  { updates := [rowRetireEarly, rowRetireLate]
    tags := []
    categories := []
    products := []
    availabilities :=
      [("retire-1", { ring := "Retirement", date := some "2026-03-01" }),
       ("retire-2", { ring := "Retirement", date := some "2026-06-01" })]
    checkpoint := chkSuccess "2025-01-01T00:00:00.0000000Z" 2 }

/-- A record with no Retirement-ring availability at all. -/
def rowNoRetirement : StoredUpdate :=
  { id := "no-ret"
    title := "No Retirement"
    description_html := ""
    description_md := none
    status := some "Active"
    locale := none
    created := "2025-01-01T00:00:00Z"
    modified := "2025-01-20T00:00:00Z" }

/-- A store holding a record with a Retirement date and one without. -/
def dbNulls : Db :=
  { updates := [rowRetireEarly, rowNoRetirement]
    tags := []
    categories := []
    products := []
    availabilities := [("retire-1", { ring := "Retirement", date := some "2026-03-01" })]
    checkpoint := chkSuccess "2025-01-01T00:00:00.0000000Z" 2 }

end AzureUpdates

namespace AzureUpdates
open SearchService

/-- Worker for `specTerms`: `acc` holds the reversed characters of the word
being read. -/
def specTermsGo : List Char → List Char → List (List Char)
  | acc, [] => if acc.isEmpty then [] else [acc.reverse]
  | acc, c :: cs =>
    if isJsWs c then
      if acc.isEmpty then specTermsGo [] cs else acc.reverse :: specTermsGo [] cs
    else specTermsGo (c :: acc) cs

/-- The claim's "whitespace-delimited terms" of a character list: the maximal
runs of non-whitespace characters, in order. -/
def specTerms (l : List Char) : List (List Char) :=
  specTermsGo [] l

/-- The claim's recipe taken literally: strip the FTS5 operators, split into
whitespace-delimited terms, turn each term `t` into `"t"*` and join with
`OR`. -/
def specFtsQueryLiteral (q : String) : String :=
  String.mk (List.intercalate orSep
    ((specTerms (stripSpecialChars q.data)).map (fun w => '"' :: w ++ ['"', '*'])))

/-- The amended recipe: as the claim, except that each double quote inside a
term is doubled (FTS5 string escaping) before the term is quoted. -/
def specFtsQueryEscaped (q : String) : String :=
  String.mk (List.intercalate orSep
    ((specTerms (stripSpecialChars q.data)).map prefixToken))

/-- Strip trailing whitespace only (the second half of `trim`). -/
def trimTrailing (l : List Char) : List Char :=
  (l.reverse.dropWhile isJsWs).reverse

end AzureUpdates


/-! ## Theorems: supporting lemmas and the claims -/

namespace AzureUpdates

/-- C3: invoking `performSync` while the checkpoint status is already
`in_progress` returns `success = false` with the "already in progress" error,
leaves the database untouched, and never invokes the remote feed fetch. -/
theorem c3_in_progress_guard (env : SyncEnv) (db : Db)
    (h : db.checkpoint.syncStatus = SyncStatus.inProgress) :
    (performSync env db).result.success = false ∧
    (performSync env db).result.error = some "Sync already in progress" ∧
    (performSync env db).fetchCalled = false ∧
    (performSync env db).db = db := by
  simp [performSync, startSync, h]

/-- Witness for C3 at a concrete in-progress state. -/
theorem c3_in_progress_guard_witness :
    (performSync envBasic dbInProgress).result.success = false ∧
    (performSync envBasic dbInProgress).result.error = some "Sync already in progress" ∧
    (performSync envBasic dbInProgress).fetchCalled = false ∧
    (performSync envBasic dbInProgress).db = dbInProgress :=
  c3_in_progress_guard envBasic dbInProgress (by decide)

/-- C1 (amended): when the lock is acquired and zero records survive fetching
and retention filtering, `performSync` returns success with zero counts and
advances the checkpoint to `success` with the record count unchanged — but the
`last_sync` column is set to the current wall-clock time
(`new Date().toISOString()`), not left at the previous watermark. -/
theorem c1_empty_batch (env : SyncEnv) (db : Db) (l : List AzureUpdate)
    (hlock : db.checkpoint.syncStatus ≠ SyncStatus.inProgress)
    (hf : env.fetch = Except.ok l)
    (hempty : retentionSurvivors env l = []) :
    (performSync env db).result.success = true ∧
    (performSync env db).result.recordsProcessed = 0 ∧
    (performSync env db).result.recordsInserted = 0 ∧
    (performSync env db).result.recordsUpdated = 0 ∧
    (performSync env db).db.checkpoint.syncStatus = SyncStatus.success ∧
    (performSync env db).db.checkpoint.recordCount = db.updates.length ∧
    (performSync env db).db.checkpoint.lastSync = env.now := by
  simp [performSync, startSync, hlock, hf, hempty, completeSyncSuccess, getUpdateCount]

/-- Witness for C1 (amended): a concrete empty-batch run advances the
checkpoint and writes the clock reading into `last_sync`. -/
theorem c1_empty_batch_witness :
    (performSync envBasic dbPrevWatermark).result.success = true ∧
    (performSync envBasic dbPrevWatermark).result.recordsProcessed = 0 ∧
    (performSync envBasic dbPrevWatermark).result.recordsInserted = 0 ∧
    (performSync envBasic dbPrevWatermark).result.recordsUpdated = 0 ∧
    (performSync envBasic dbPrevWatermark).db.checkpoint.syncStatus = SyncStatus.success ∧
    (performSync envBasic dbPrevWatermark).db.checkpoint.recordCount =
      dbPrevWatermark.updates.length ∧
    (performSync envBasic dbPrevWatermark).db.checkpoint.lastSync = envBasic.now :=
  c1_empty_batch envBasic dbPrevWatermark [] (by decide) rfl rfl

/-- C1 counterexample: on a concrete empty-batch run the sync succeeds with
zero counts, yet the checkpoint watermark (`last_sync`) ends up equal to the
wall-clock reading and different from the value it held before the run —
refuting the claim that it is left unchanged. -/
theorem c1_counterexample :
    (performSync envBasic dbPrevWatermark).result.success = true ∧
    (performSync envBasic dbPrevWatermark).result.recordsProcessed = 0 ∧
    dbPrevWatermark.checkpoint.lastSync = "2025-01-01T00:00:00.0000000Z" ∧
    (performSync envBasic dbPrevWatermark).db.checkpoint.lastSync =
      "2025-06-01T00:00:00.000Z" ∧
    ¬ (performSync envBasic dbPrevWatermark).db.checkpoint.lastSync =
        dbPrevWatermark.checkpoint.lastSync := by
  decide

/-- If some record of the batch fails to persist, the transaction loop raises
(the first failing record aborts it). -/
theorem syncLoop_error_of_fail (env : SyncEnv) :
    ∀ (l : List AzureUpdate) (db : Db) (n : Nat) (u : AzureUpdate),
      u ∈ l → env.persistFails u = true →
      ∃ msg, syncLoop env db n l = Except.error msg := by
  intro l
  induction l with
  | nil =>
    intro db n u hu _
    cases hu
  | cons v t ih =>
    intro db n u hu hfail
    by_cases hv : env.persistFails v = true
    · exact ⟨"Failed to sync update " ++ v.id, by simp [syncLoop, hv]⟩
    · rcases List.mem_cons.mp hu with h | h
      · subst h
        exact absurd hfail hv
      · rcases ih (applyRecord env db v) (n + 1) u h hfail with ⟨msg, hmsg⟩
        exact ⟨msg, by simp [syncLoop, hv, hmsg]⟩

/-- C2: if any single record of the surviving batch fails to persist, the run
returns `success = false`, none of the batch is committed (the update table
and every association table are exactly as before the run), the checkpoint
status becomes `failed`, and the watermark is unchanged. -/
theorem c2_rollback (env : SyncEnv) (db : Db) (l : List AzureUpdate) (u : AzureUpdate)
    (hlock : db.checkpoint.syncStatus ≠ SyncStatus.inProgress)
    (hf : env.fetch = Except.ok l)
    (hu : u ∈ retentionSurvivors env l)
    (hfail : env.persistFails u = true) :
    (performSync env db).result.success = false ∧
    (performSync env db).db.updates = db.updates ∧
    (performSync env db).db.tags = db.tags ∧
    (performSync env db).db.categories = db.categories ∧
    (performSync env db).db.products = db.products ∧
    (performSync env db).db.availabilities = db.availabilities ∧
    (performSync env db).db.checkpoint.syncStatus = SyncStatus.failed ∧
    (performSync env db).db.checkpoint.lastSync = db.checkpoint.lastSync := by
  have hne : retentionSurvivors env l ≠ [] := List.ne_nil_of_mem hu
  have hlen : ¬ (retentionSurvivors env l).length = 0 := by
    simpa [List.length_eq_zero] using hne
  obtain ⟨msg, htx⟩ :=
    syncLoop_error_of_fail env (retentionSurvivors env l)
      { db with checkpoint := { db.checkpoint with syncStatus := SyncStatus.inProgress } }
      0 u hu hfail
  simp [performSync, startSync, hlock, hf, hlen, syncUpdatesInTransaction, htx,
    completeSyncFailure]

/-- Witness for C2: record #2 of 3 fails, and the concrete run rolls back. -/
theorem c2_rollback_witness :
    (performSync envPoisonBatch dbPrevWatermark).result.success = false ∧
    (performSync envPoisonBatch dbPrevWatermark).db.updates = dbPrevWatermark.updates ∧
    (performSync envPoisonBatch dbPrevWatermark).db.tags = dbPrevWatermark.tags ∧
    (performSync envPoisonBatch dbPrevWatermark).db.categories = dbPrevWatermark.categories ∧
    (performSync envPoisonBatch dbPrevWatermark).db.products = dbPrevWatermark.products ∧
    (performSync envPoisonBatch dbPrevWatermark).db.availabilities =
      dbPrevWatermark.availabilities ∧
    (performSync envPoisonBatch dbPrevWatermark).db.checkpoint.syncStatus =
      SyncStatus.failed ∧
    (performSync envPoisonBatch dbPrevWatermark).db.checkpoint.lastSync =
      dbPrevWatermark.checkpoint.lastSync :=
  c2_rollback envPoisonBatch dbPrevWatermark
    [mkUpdate "r1" "2025-02-01T00:00:00.0000000Z",
     mkUpdate "r2" "2025-03-01T00:00:00.0000000Z",
     mkUpdate "r3" "2025-04-01T00:00:00.0000000Z"]
    (mkUpdate "r2" "2025-03-01T00:00:00.0000000Z")
    (by decide) rfl (by decide) (by decide)

/-- The watermark fold never goes below its starting value (lexicographic
order on character lists, the model of the JavaScript string comparison). -/
theorem le_latestModified (s : String) (l : List AzureUpdate) :
    s.data ≤ (latestModified s l).data := by
  induction l generalizing s with
  | nil => exact le_refl _
  | cons u t ih =>
    simp only [latestModified, List.foldl_cons] at ih ⊢
    refine le_trans ?_ (ih (if s.data < u.modified.data then u.modified else s))
    split
    · exact le_of_lt (by assumption)
    · exact le_refl _

/-- The watermark value read at the start of a run is at least the raw
checkpoint column (the `||` fallback can only replace the empty string). -/
theorem lastSync_le_effective (db : Db) :
    db.checkpoint.lastSync.data ≤ (effectiveLastSync db).data := by
  unfold effectiveLastSync
  split
  · rename_i h
    rw [h]
    show ([] : List Char) ≤ _
    cases h2 : (INITIAL_SYNC_CHECKPOINT : String).data with
    | nil => exact le_refl _
    | cons c cs => exact le_of_lt (List.nil_lt_cons c cs)
  · exact le_refl _

/-- C4 (amended): a run that does not succeed never changes the watermark;
a successful run over a non-empty surviving batch writes exactly
`latestModified` of the previous effective watermark and the batch, which is
at least the previous watermark. (An empty-batch successful run instead
writes the wall-clock time, which can move the watermark in either
direction — see the counterexample.) -/
theorem c4_watermark_monotonicity (env : SyncEnv) (db : Db) :
    ((performSync env db).result.success = false →
      (performSync env db).db.checkpoint.lastSync = db.checkpoint.lastSync) ∧
    (∀ l, env.fetch = Except.ok l → retentionSurvivors env l ≠ [] →
      (performSync env db).result.success = true →
      (performSync env db).db.checkpoint.lastSync =
        latestModified (effectiveLastSync db) (retentionSurvivors env l) ∧
      db.checkpoint.lastSync.data ≤ ((performSync env db).db.checkpoint.lastSync).data) := by
  by_cases hlock : db.checkpoint.syncStatus = SyncStatus.inProgress
  · constructor
    · intro _
      simp [performSync, startSync, hlock]
    · intro l hf hne hsucc
      simp [performSync, startSync, hlock] at hsucc
  · cases hfetch : env.fetch with
    | error e =>
      constructor
      · intro _
        simp [performSync, startSync, hlock, hfetch, completeSyncFailure]
      · intro l hf hne hsucc
        cases hf
    | ok l0 =>
      by_cases hlen : (retentionSurvivors env l0).length = 0
      · constructor
        · intro h
          simp [performSync, startSync, hlock, hfetch, hlen] at h
        · intro l hf hne hsucc
          injection hf with hinj
          subst hinj
          exact absurd (List.length_eq_zero.mp hlen) hne
      · cases htx : syncUpdatesInTransaction env
          { db with checkpoint := { db.checkpoint with syncStatus := SyncStatus.inProgress } }
          (retentionSurvivors env l0) with
        | error msg =>
          constructor
          · intro _
            simp [performSync, startSync, hlock, hfetch, hlen, htx, completeSyncFailure]
          · intro l hf hne hsucc
            injection hf with hinj
            subst hinj
            simp [performSync, startSync, hlock, hfetch, hlen, htx] at hsucc
        | ok res =>
          constructor
          · intro h
            simp [performSync, startSync, hlock, hfetch, hlen, htx] at h
          · intro l hf hne _
            injection hf with hinj
            subst hinj
            constructor
            · simp [performSync, startSync, hlock, hfetch, hlen, htx, completeSyncSuccess,
                effectiveLastSync]
            · have h1 := lastSync_le_effective db
              have h2 := le_latestModified (effectiveLastSync db) (retentionSurvivors env l0)
              have h3 :
                  (performSync env db).db.checkpoint.lastSync =
                    latestModified (effectiveLastSync db) (retentionSurvivors env l0) := by
                simp [performSync, startSync, hlock, hfetch, hlen, htx, completeSyncSuccess,
                  effectiveLastSync]
              rw [h3]
              exact le_trans h1 h2

/-- C4 counterexample: a successful (empty-batch) run writes a watermark
strictly below the watermark read at the start of the run, refuting
"new watermark ≥ previous watermark for every successful run". -/
theorem c4_counterexample :
    (performSync envPastClock dbFutureWatermark).result.success = true ∧
    dbFutureWatermark.checkpoint.lastSync = "2030-01-01T00:00:00.0000000Z" ∧
    (performSync envPastClock dbFutureWatermark).db.checkpoint.lastSync =
      "1999-01-01T00:00:00.000Z" ∧
    ((performSync envPastClock dbFutureWatermark).db.checkpoint.lastSync).data <
      dbFutureWatermark.checkpoint.lastSync.data := by
  decide

/-- Witness for C4 (amended) at a concrete successful non-empty run. -/
theorem c4_watermark_monotonicity_witness :
    (performSync envOneRecord dbPrevWatermark).db.checkpoint.lastSync =
      latestModified (effectiveLastSync dbPrevWatermark)
        (retentionSurvivors envOneRecord [mkUpdate "r1" "2025-02-01T00:00:00.0000000Z"]) ∧
    dbPrevWatermark.checkpoint.lastSync.data ≤
      ((performSync envOneRecord dbPrevWatermark).db.checkpoint.lastSync).data :=
  (c4_watermark_monotonicity envOneRecord dbPrevWatermark).2
    [mkUpdate "r1" "2025-02-01T00:00:00.0000000Z"] rfl (by decide) (by decide)

/-- The update table after one record body: ids unchanged on the overwrite
branch of the upsert, extended by the record id on the insert branch. -/
theorem ids_applyRecord (env : SyncEnv) (db : Db) (u : AzureUpdate) :
    ids (applyRecord env db u) =
      if db.updates.any (fun r => r.id = u.id) then ids db else ids db ++ [u.id] := by
  show ids (upsertUpdate db (syncedRow env u)) = _
  have hid : (syncedRow env u).id = u.id := rfl
  unfold upsertUpdate ids
  simp only [hid]
  split
  · rw [List.map_map]
    refine List.map_congr_left ?_
    intro r _
    by_cases h2 : r.id = u.id
    · simp [h2, hid]
    · simp [h2]
  · simp [hid]

/-- Membership form of `ids_applyRecord`. -/
theorem mem_ids_applyRecord (env : SyncEnv) (db : Db) (u : AzureUpdate) (x : String) :
    x ∈ ids (applyRecord env db u) ↔ x ∈ ids db ∨ x = u.id := by
  rw [ids_applyRecord]
  split
  · rename_i h
    have hu : u.id ∈ ids db := by
      obtain ⟨r, hr, hrid⟩ := List.any_eq_true.mp h
      exact List.mem_map.mpr ⟨r, hr, of_decide_eq_true hrid⟩
    constructor
    · exact Or.inl
    · rintro (hx | rfl)
      · exact hx
      · exact hu
  · simp

/-- Ids after a successful transaction loop: exactly the previous ids together
with the ids of the processed batch. -/
theorem mem_ids_syncLoop (env : SyncEnv) :
    ∀ (l : List AzureUpdate) (db : Db) (n : Nat) (db2 : Db) (p : Nat),
      syncLoop env db n l = Except.ok (db2, p) →
      ∀ x, x ∈ ids db2 ↔ x ∈ ids db ∨ x ∈ l.map (fun u => u.id) := by
  intro l
  induction l with
  | nil =>
    intro db n db2 p h x
    simp only [syncLoop] at h
    injection h with h
    injection h with h1 h2
    rw [← h1]
    simp
  | cons u t ih =>
    intro db n db2 p h x
    by_cases hv : env.persistFails u = true
    · simp [syncLoop, hv] at h
    · simp only [syncLoop, hv, if_neg, Bool.false_eq_true, ite_false] at h
      rw [ih (applyRecord env db u) (n + 1) db2 p h x, mem_ids_applyRecord]
      simp [or_assoc]

/-- C8 (amended): under a configured retention floor, a fetched record whose
`max(created, modified)` precedes the floor is dropped and never persisted —
it is absent from the store after the run *provided it was not already
present* — while on a successful run every fetched record at or after the
floor is present in the store. -/
theorem c8_retention (env : SyncEnv) (db : Db) (ret : String) (l : List AzureUpdate)
    (hret : env.retentionStartDate = some ret)
    (hf : env.fetch = Except.ok l) :
    (∀ r, r ∈ l →
      relevantTime env.parseTime r < retentionCutoff env.parseTime ret →
      (∀ u, u ∈ l → u.id = r.id → u = r) →
      r.id ∉ ids db →
      r.id ∉ ids (performSync env db).db) ∧
    (∀ r, r ∈ l →
      retentionCutoff env.parseTime ret ≤ relevantTime env.parseTime r →
      (performSync env db).result.success = true →
      r.id ∈ ids (performSync env db).db) := by
  have hsurv : retentionSurvivors env l =
      l.filter (fun u => decide (retentionCutoff env.parseTime ret ≤ relevantTime env.parseTime u)) := by
    simp [retentionSurvivors, hret, filterUpdatesByRetentionDate]
  by_cases hlock : db.checkpoint.syncStatus = SyncStatus.inProgress
  · constructor
    · intro r _ _ _ hnot
      simpa [performSync, startSync, hlock] using hnot
    · intro r _ _ hsucc
      simp [performSync, startSync, hlock] at hsucc
  · by_cases hlen : (retentionSurvivors env l).length = 0
    · constructor
      · intro r _ _ _ hnot
        simpa [performSync, startSync, hlock, hf, hlen, completeSyncSuccess, ids]
          using hnot
      · intro r hr hkeep _
        have hmem : r ∈ retentionSurvivors env l := by
          rw [hsurv]
          exact List.mem_filter.mpr ⟨hr, decide_eq_true hkeep⟩
        rw [List.length_eq_zero.mp hlen] at hmem
        cases hmem
    · cases htx : syncUpdatesInTransaction env
        { db with checkpoint := { db.checkpoint with syncStatus := SyncStatus.inProgress } }
        (retentionSurvivors env l) with
      | error msg =>
        constructor
        · intro r _ _ _ hnot
          simpa [performSync, startSync, hlock, hf, hlen, htx, completeSyncFailure, ids]
            using hnot
        · intro r _ _ hsucc
          simp [performSync, startSync, hlock, hf, hlen, htx] at hsucc
      | ok res =>
        have hids := mem_ids_syncLoop env (retentionSurvivors env l)
          { db with checkpoint := { db.checkpoint with syncStatus := SyncStatus.inProgress } }
          0 res.1 res.2 htx
        have hrun : ids (performSync env db).db = ids res.1 := by
          simp [performSync, startSync, hlock, hf, hlen, htx, completeSyncSuccess, ids]
        constructor
        · intro r hr hdrop huniq hnot
          rw [hrun]
          intro hmem
          rcases (hids r.id).mp hmem with hold | hnew
          · exact hnot (by simpa [ids] using hold)
          · rcases List.mem_map.mp hnew with ⟨u, hu, huid⟩
            have hul : u ∈ l := by
              rw [hsurv] at hu
              exact (List.mem_filter.mp hu).1
            have : u = r := huniq u hul huid
            subst this
            rw [hsurv] at hu
            have := of_decide_eq_true (List.mem_filter.mp hu).2
            exact absurd this (not_le.mpr hdrop)
        · intro r hr hkeep _
          rw [hrun]
          refine (hids r.id).mpr (Or.inr ?_)
          refine List.mem_map.mpr ⟨r, ?_, rfl⟩
          rw [hsurv]
          exact List.mem_filter.mpr ⟨hr, decide_eq_true hkeep⟩

/-- C8 counterexample: a fetched record whose `max(created, modified)`
precedes the retention floor, but which was already in the store from an
earlier run, is still present after a `performSync` configured with that
floor — the run only drops it from the batch, it never deletes it. -/
theorem c8_counterexample :
    relevantTime envRefetchOld.parseTime (mkUpdate "old-update" "2019-06-01T00:00:00Z") <
      retentionCutoff envRefetchOld.parseTime "2022-01-01" ∧
    (performSync envRefetchOld dbWithOld).result.success = true ∧
    "old-update" ∈ ids (performSync envRefetchOld dbWithOld).db := by
  decide

/-- Witness for C8 (amended): against an empty store, the pre-floor record
stays absent and the post-floor record is persisted. -/
theorem c8_retention_witness :
    "old-update" ∉ ids (performSync envMixedBatch dbPrevWatermark).db ∧
    "new-update" ∈ ids (performSync envMixedBatch dbPrevWatermark).db :=
  ⟨(c8_retention envMixedBatch dbPrevWatermark "2022-01-01"
      [mkUpdate "old-update" "2019-06-01T00:00:00Z",
       mkUpdate "new-update" "2023-06-01T00:00:00Z"] rfl rfl).1
      (mkUpdate "old-update" "2019-06-01T00:00:00Z") (by decide) (by decide) (by decide)
      (by decide),
   (c8_retention envMixedBatch dbPrevWatermark "2022-01-01"
      [mkUpdate "old-update" "2019-06-01T00:00:00Z",
       mkUpdate "new-update" "2023-06-01T00:00:00Z"] rfl rfl).2
      (mkUpdate "new-update" "2023-06-01T00:00:00Z") (by decide) (by decide) (by decide)⟩

/-- C10: every search response holds at most `MAX_LIMIT = 100` rows, and the
metadata reports the effective limit `min(requested ?? 20, 100)` (so an
absent limit means 20). -/
theorem c10_limit_clamp (eng : SearchService.FtsEngine) (db : Db)
    (q : SearchService.SearchQuery) :
    (SearchService.searchUpdates eng db q).results.length ≤ SearchService.MAX_LIMIT ∧
    (SearchService.searchUpdates eng db q).metadata.limit =
      min (q.limit.getD SearchService.DEFAULT_LIMIT) SearchService.MAX_LIMIT := by
  constructor
  · show (((SearchService.applyOrder _ _ _ _ _).drop (q.offset.getD 0)).take
        (min (q.limit.getD SearchService.DEFAULT_LIMIT) SearchService.MAX_LIMIT)).length ≤
      SearchService.MAX_LIMIT
    rw [List.length_take]
    exact le_trans (min_le_left _ _) (min_le_right _ _)
  · rfl

/-- C5: evaluation of both search-service versions at the claim's own
scenario. The record tagged `Security, Compliance` is returned under
`{tags: ["Security"]}`, but it is ALSO returned under
`{tags: ["Security", "Pricing"]}`: the earlier service's `buildExistsClause`
joins the per-value EXISTS checks with `OR` (any-value-matches), and the
current service builds no clause at all for the tags dimension — so the
record is not excluded, contradicting the claimed AND semantics. -/
theorem c5_filter_dimension_eval :
    LegacySearchService.buildFilterClauses dbTagged (some filterSecurity) taggedRow = true ∧
    LegacySearchService.buildExistsClause dbTagged.tags "u1" ["Security", "Pricing"] = true ∧
    LegacySearchService.buildFilterClauses dbTagged (some filterSecurityPricing) taggedRow = true ∧
    SearchService.buildFilterClauses dbTagged (some filterSecurityPricing) taggedRow = true ∧
    (SearchService.searchUpdates noFts dbTagged
        { filters := some filterSecurityPricing }).results = [taggedRow] ∧
    (SearchService.searchUpdates noFts dbTagged
        { filters := some filterSecurity }).results = [taggedRow] := by
  decide

/-- C6: `retirement:asc` passes the tool's `validateSortBy`, but the
service's `sortMap` only knows the `retirementDate:*` keys, so
`buildOrderByClause` falls back to the default `modified DESC` — and the
returned page puts the June-2026 retirement before the March-2026 one under
a supposedly ascending retirement sort. -/
theorem c6_retirement_sort_eval :
    SearchTool.validateSortBy "retirement:asc" = [] ∧
    SearchTool.validateSortBy "retirement:desc" = [] ∧
    SearchService.sortMap.lookup "retirement:asc" = none ∧
    SearchService.buildOrderByClause (some "retirement:asc") false =
      SearchService.SortSpec.modifiedDesc ∧
    SearchService.buildOrderByClause (some "retirement:desc") false =
      SearchService.SortSpec.modifiedDesc ∧
    (SearchService.searchUpdates noFts dbRetire
        { sortBy := some "retirement:asc" }).results = [rowRetireLate, rowRetireEarly] ∧
    SearchService.getRetirementDateSubquery dbRetire rowRetireLate = some "2026-06-01" ∧
    SearchService.getRetirementDateSubquery dbRetire rowRetireEarly = some "2026-03-01" := by
  decide

/-- Membership in an insertion step. -/
theorem mem_insertLe {α : Type} (le : α → α → Bool) (x : α) (l : List α) (z : α) :
    z ∈ insertLe le x l ↔ z = x ∨ z ∈ l := by
  induction l with
  | nil => simp [insertLe]
  | cons y ys ih =>
    simp only [insertLe]
    split
    · rw [List.mem_cons, ih, List.mem_cons]
      tauto
    · simp

/-- Inserting into a pairwise-ordered list keeps it pairwise ordered, for a
total transitive boolean comparator. -/
theorem pairwise_insertLe {α : Type} (le : α → α → Bool)
    (htot : ∀ a b, le a b = true ∨ le b a = true)
    (htrans : ∀ a b c, le a b = true → le b c = true → le a c = true)
    (x : α) (l : List α) (h : l.Pairwise (fun a b => le a b = true)) :
    (insertLe le x l).Pairwise (fun a b => le a b = true) := by
  induction l with
  | nil => simp [insertLe]
  | cons y ys ih =>
    rcases List.pairwise_cons.mp h with ⟨hy, hys⟩
    simp only [insertLe]
    split
    · rename_i hyx
      refine List.pairwise_cons.mpr ⟨?_, ih hys⟩
      intro z hz
      rcases (mem_insertLe le x ys z).mp hz with rfl | hz2
      · exact hyx
      · exact hy z hz2
    · rename_i hyx
      have hxy : le x y = true := by
        rcases htot y x with h1 | h1
        · exact absurd h1 hyx
        · exact h1
      refine List.pairwise_cons.mpr ⟨?_, h⟩
      intro z hz
      rcases List.mem_cons.mp hz with rfl | hz2
      · exact hxy
      · exact htrans x y z hxy (hy z hz2)

/-- The insertion sort produces a pairwise-ordered list, for a total
transitive boolean comparator. -/
theorem pairwise_sortRowsBy {α : Type} (le : α → α → Bool)
    (htot : ∀ a b, le a b = true ∨ le b a = true)
    (htrans : ∀ a b c, le a b = true → le b c = true → le a c = true)
    (l : List α) :
    (sortRowsBy le l).Pairwise (fun a b => le a b = true) := by
  induction l with
  | nil => simp [sortRowsBy]
  | cons x xs ih => exact pairwise_insertLe le htot htrans x _ ih

/-- The ascending retirement comparator is total. -/
theorem retAsc_total (eng : SearchService.FtsEngine) (fq : String) (db : Db) :
    ∀ a b, SearchService.rowLe eng fq db SearchService.SortSpec.retirementAsc a b = true ∨
      SearchService.rowLe eng fq db SearchService.SortSpec.retirementAsc b a = true := by
  intro a b
  simp only [SearchService.rowLe]
  cases ha : SearchService.getRetirementDateSubquery db a <;>
    cases hb : SearchService.getRetirementDateSubquery db b <;>
    simp [sqlLe]
  exact le_total _ _

/-- The ascending retirement comparator is transitive. -/
theorem retAsc_trans (eng : SearchService.FtsEngine) (fq : String) (db : Db) :
    ∀ a b c, SearchService.rowLe eng fq db SearchService.SortSpec.retirementAsc a b = true →
      SearchService.rowLe eng fq db SearchService.SortSpec.retirementAsc b c = true →
      SearchService.rowLe eng fq db SearchService.SortSpec.retirementAsc a c = true := by
  intro a b c hab hbc
  simp only [SearchService.rowLe] at hab hbc ⊢
  cases ha : SearchService.getRetirementDateSubquery db a <;>
    cases hb : SearchService.getRetirementDateSubquery db b <;>
    cases hc : SearchService.getRetirementDateSubquery db c <;>
    simp_all [sqlLe]
  exact le_trans hab hbc

/-- The descending retirement comparator is total. -/
theorem retDesc_total (eng : SearchService.FtsEngine) (fq : String) (db : Db) :
    ∀ a b, SearchService.rowLe eng fq db SearchService.SortSpec.retirementDesc a b = true ∨
      SearchService.rowLe eng fq db SearchService.SortSpec.retirementDesc b a = true := by
  intro a b
  simp only [SearchService.rowLe]
  cases ha : SearchService.getRetirementDateSubquery db a <;>
    cases hb : SearchService.getRetirementDateSubquery db b <;>
    simp [sqlLe]
  exact le_total _ _

/-- The descending retirement comparator is transitive. -/
theorem retDesc_trans (eng : SearchService.FtsEngine) (fq : String) (db : Db) :
    ∀ a b c, SearchService.rowLe eng fq db SearchService.SortSpec.retirementDesc a b = true →
      SearchService.rowLe eng fq db SearchService.SortSpec.retirementDesc b c = true →
      SearchService.rowLe eng fq db SearchService.SortSpec.retirementDesc a c = true := by
  intro a b c hab hbc
  simp only [SearchService.rowLe] at hab hbc ⊢
  cases ha : SearchService.getRetirementDateSubquery db a <;>
    cases hb : SearchService.getRetirementDateSubquery db b <;>
    cases hc : SearchService.getRetirementDateSubquery db c <;>
    simp_all [sqlLe]
  exact le_trans hbc hab

/-- C7 (amended): the retirement sorts follow SQLite's default NULL ordering
(NULL is the smallest sort key, and no NULLS LAST is emitted): under
`retirementDate:asc` every record lacking a Retirement-ring date precedes
every record having one (nulls FIRST), and under `retirementDate:desc` it
follows them (nulls last) — not one nulls-last rule for both directions. -/
theorem c7_nulls_ordering (eng : SearchService.FtsEngine) (fq : String) (db : Db)
    (rows : List StoredUpdate) :
    (SearchService.applyOrder eng fq db SearchService.SortSpec.retirementAsc rows).Pairwise
      (fun a b => SearchService.getRetirementDateSubquery db b = none →
        SearchService.getRetirementDateSubquery db a = none) ∧
    (SearchService.applyOrder eng fq db SearchService.SortSpec.retirementDesc rows).Pairwise
      (fun a b => SearchService.getRetirementDateSubquery db a = none →
        SearchService.getRetirementDateSubquery db b = none) := by
  constructor
  · refine List.Pairwise.imp ?_
      (pairwise_sortRowsBy _ (retAsc_total eng fq db) (retAsc_trans eng fq db) rows)
    intro a b hab hbnone
    cases ha : SearchService.getRetirementDateSubquery db a with
    | none => rfl
    | some x =>
      simp [SearchService.rowLe, ha, hbnone] at hab
  · refine List.Pairwise.imp ?_
      (pairwise_sortRowsBy _ (retDesc_total eng fq db) (retDesc_trans eng fq db) rows)
    intro a b hab hanone
    cases hb : SearchService.getRetirementDateSubquery db b with
    | none => rfl
    | some x =>
      simp [SearchService.rowLe, hanone, hb] at hab

/-- C7 counterexample: under the ascending retirement sort the record lacking
a Retirement-ring entry is placed FIRST, before a record that has one —
refuting nulls-last under ascending order. -/
theorem c7_counterexample :
    SearchService.getRetirementDateSubquery dbNulls rowNoRetirement = none ∧
    SearchService.getRetirementDateSubquery dbNulls rowRetireEarly = some "2026-03-01" ∧
    rowNoRetirement ≠ rowRetireEarly ∧
    SearchService.applyOrder noFts "" dbNulls SearchService.SortSpec.retirementAsc
        [rowRetireEarly, rowNoRetirement] = [rowNoRetirement, rowRetireEarly] := by
  decide

/-- Witness for C7 (amended) at a concrete store and row list. -/
theorem c7_nulls_ordering_witness :
    (SearchService.applyOrder noFts "" dbNulls SearchService.SortSpec.retirementAsc
        [rowRetireEarly, rowNoRetirement]).Pairwise
      (fun a b => SearchService.getRetirementDateSubquery dbNulls b = none →
        SearchService.getRetirementDateSubquery dbNulls a = none) ∧
    (SearchService.applyOrder noFts "" dbNulls SearchService.SortSpec.retirementDesc
        [rowRetireEarly, rowNoRetirement]).Pairwise
      (fun a b => SearchService.getRetirementDateSubquery dbNulls a = none →
        SearchService.getRetirementDateSubquery dbNulls b = none) :=
  c7_nulls_ordering noFts "" dbNulls [rowRetireEarly, rowNoRetirement]

end AzureUpdates

namespace AzureUpdates
open SearchService

theorem length_dropWhile_le {α : Type} (p : α → Bool) (l : List α) :
    (l.dropWhile p).length ≤ l.length := by
  induction l with
  | nil => simp
  | cons a t ih =>
    rw [List.dropWhile_cons]
    split
    · exact le_trans ih (Nat.le_succ _)
    · exact le_refl _

theorem dropWhile_head_false {α : Type} (p : α → Bool) :
    ∀ (l : List α) (a : α) (t : List α), l.dropWhile p = a :: t → p a = false := by
  intro l
  induction l with
  | nil =>
    intro a t h
    cases h
  | cons x xs ih =>
    intro a t h
    rw [List.dropWhile_cons] at h
    split at h
    · exact ih a t h
    · rename_i hx
      injection h with h1 _
      subst h1
      cases hpx : p x with
      | false => rfl
      | true => exact absurd hpx hx

theorem dropWhile_eq_self_of_all {α : Type} (p : α → Bool) (l : List α)
    (h : ∀ x ∈ l, p x = false) : l.dropWhile p = l := by
  cases l with
  | nil => rfl
  | cons a t => simp [List.dropWhile_cons, h a (List.mem_cons_self a t)]

theorem collapseWsGo_true (l : List Char) :
    collapseWsGo true l = collapseWsGo false (l.dropWhile isJsWs) := by
  induction l with
  | nil => rfl
  | cons c cs ih =>
    by_cases hc : isJsWs c = true
    · simp [collapseWsGo, hc, ih, List.dropWhile_cons]
    · simp [collapseWsGo, hc, List.dropWhile_cons]

theorem collapseWs_cons_ws (c : Char) (cs : List Char) (hc : isJsWs c = true) :
    collapseWs (c :: cs) = ' ' :: collapseWs (cs.dropWhile isJsWs) := by
  show collapseWsGo false (c :: cs) = ' ' :: collapseWs (cs.dropWhile isJsWs)
  simp [collapseWsGo, hc, collapseWsGo_true, collapseWs]

theorem collapseWs_cons_not_ws (c : Char) (cs : List Char) (hc : isJsWs c = false) :
    collapseWs (c :: cs) = c :: collapseWs cs := by
  show collapseWsGo false (c :: cs) = c :: collapseWs cs
  simp [collapseWsGo, hc, collapseWs]

theorem collapseWs_append_not_ws (w r : List Char) (hw : ∀ x ∈ w, isJsWs x = false) :
    collapseWs (w ++ r) = w ++ collapseWs r := by
  induction w with
  | nil => rfl
  | cons c w2 ih =>
    rw [List.cons_append, collapseWs_cons_not_ws c _ (hw c (List.mem_cons_self c w2)),
      ih (fun x hx => hw x (List.mem_cons_of_mem c hx)), List.cons_append]

theorem trimTrailing_append (w X : List Char) (hw : ∀ x ∈ w, isJsWs x = false) :
    trimTrailing (w ++ X) = w ++ trimTrailing X := by
  unfold trimTrailing
  rw [List.reverse_append]
  have hwrev : (w.reverse).dropWhile isJsWs = w.reverse :=
    dropWhile_eq_self_of_all _ _ (fun x hx => hw x (List.mem_reverse.mp hx))
  rw [List.dropWhile_append]
  split
  · rename_i hempty
    rw [hwrev, List.reverse_reverse]
    rw [List.isEmpty_iff] at hempty
    rw [hempty]
    simp
  · rw [List.reverse_append, List.reverse_reverse]

theorem trimTrailing_space_cons (Z : List Char) :
    trimTrailing (' ' :: Z) =
      if trimTrailing Z = [] then [] else ' ' :: trimTrailing Z := by
  unfold trimTrailing
  rw [show (' ' :: Z).reverse = Z.reverse ++ [' '] from by simp]
  rw [List.dropWhile_append]
  split
  · rename_i hempty
    rw [List.isEmpty_iff] at hempty
    rw [hempty]
    simp [isJsWs, List.dropWhile]
  · rename_i hne
    have hz : Z.reverse.dropWhile isJsWs ≠ [] := by
      intro h
      rw [h] at hne
      simp at hne
    rw [if_neg (fun h => hz (List.reverse_eq_nil_iff.mp h))]
    simp [List.reverse_append]

theorem splitOnSpace_append_word (w : List Char) (hw : ∀ x ∈ w, x ≠ ' ') :
    ∀ (Y y0 : List Char) (ys : List (List Char)), splitOnSpace Y = y0 :: ys →
      splitOnSpace (w ++ Y) = (w ++ y0) :: ys := by
  induction w with
  | nil =>
    intro Y y0 ys h
    simpa using h
  | cons c w2 ih =>
    intro Y y0 ys h
    have hc : c ≠ ' ' := hw c (List.mem_cons_self _ _)
    rw [List.cons_append]
    have hrec := ih (fun x hx => hw x (List.mem_cons_of_mem c hx)) Y y0 ys h
    simp only [splitOnSpace, hc, ite_false, hrec]
    simp [hc]

theorem specTerms_nil : specTerms [] = [] := rfl

theorem specTerms_cons_ws (c : Char) (cs : List Char) (hc : isJsWs c = true) :
    specTerms (c :: cs) = specTerms cs := by
  simp [specTerms, specTermsGo, hc]

theorem specTermsGo_nonempty (a : Char) (acc : List Char) :
    ∀ cs, specTermsGo (a :: acc) cs =
      ((a :: acc).reverse ++ cs.takeWhile (fun x => !isJsWs x)) ::
        specTermsGo [] (cs.dropWhile (fun x => !isJsWs x)) := by
  intro cs
  induction cs generalizing a acc with
  | nil => simp [specTermsGo]
  | cons c cs2 ih =>
    by_cases hc : isJsWs c = true
    · have hnot : (!isJsWs c) = false := by simp [hc]
      simp only [specTermsGo, hc, ite_true, List.isEmpty_cons, List.takeWhile_cons,
        List.dropWhile_cons, hnot, ite_false, Bool.false_eq_true]
      simp [specTermsGo, hc]
    · have hb : isJsWs c = false := by
        cases h2 : isJsWs c with
        | false => rfl
        | true => exact absurd h2 hc
      have hnot : (!isJsWs c) = true := by simp [hb]
      simp only [specTermsGo, hb, Bool.false_eq_true, ite_false, List.takeWhile_cons,
        List.dropWhile_cons, hnot, ite_true]
      rw [ih c (a :: acc)]
      simp

theorem specTerms_cons_word (c : Char) (cs : List Char) (hc : isJsWs c = false) :
    specTerms (c :: cs) =
      (c :: cs.takeWhile (fun x => !isJsWs x)) ::
        specTerms (cs.dropWhile (fun x => !isJsWs x)) := by
  show specTermsGo [] (c :: cs) = _
  simp only [specTermsGo, hc, Bool.false_eq_true, ite_false]
  rw [specTermsGo_nonempty c [] cs]
  simp [specTerms]

theorem specTerms_dropWhile_ws (l : List Char) :
    specTerms (l.dropWhile isJsWs) = specTerms l := by
  induction l with
  | nil => rfl
  | cons c cs ih =>
    by_cases hc : isJsWs c = true
    · rw [List.dropWhile_cons, if_pos hc, ih, specTerms_cons_ws c cs hc]
    · rw [List.dropWhile_cons, if_neg hc]

/-- Collapsing a list whose head survives `dropWhile isJsWs` yields a list
that `dropWhile isJsWs` leaves unchanged. -/
theorem dropWhile_collapseWs_dropWhile (l : List Char) :
    (collapseWs (l.dropWhile isJsWs)).dropWhile isJsWs = collapseWs (l.dropWhile isJsWs) := by
  cases hx : l.dropWhile isJsWs with
  | nil => rfl
  | cons e t =>
    have he : isJsWs e = false := dropWhile_head_false _ l e t hx
    rw [collapseWs_cons_not_ws e t he, List.dropWhile_cons, if_neg (by simp [he])]

/-- The sanitizer's split phase — collapse whitespace, trim, split on single
spaces, drop empty words — computes exactly the whitespace-delimited terms. -/
theorem codeTerms_eq_specTerms (n : Nat) :
    ∀ l : List Char, l.length ≤ n →
      (splitOnSpace (trimJs (collapseWs l))).filter (fun w => decide (0 < w.length)) =
        specTerms l := by
  induction n with
  | zero =>
    intro l hl
    rw [List.length_eq_zero.mp (Nat.le_zero.mp hl)]
    rfl
  | succ n ih =>
    intro l hl
    cases l with
    | nil => rfl
    | cons c cs =>
      have hcs : cs.length ≤ n := by
        simp only [List.length_cons] at hl
        omega
      by_cases hc : isJsWs c = true
      · rw [collapseWs_cons_ws c cs hc]
        have htrim : trimJs (' ' :: collapseWs (cs.dropWhile isJsWs)) =
            trimJs (collapseWs (cs.dropWhile isJsWs)) := by
          simp [trimJs, List.dropWhile_cons, isJsWs]
        rw [htrim, ih (cs.dropWhile isJsWs) (le_trans (length_dropWhile_le _ _) hcs),
          specTerms_dropWhile_ws, specTerms_cons_ws c cs hc]
      · have hc2 : isJsWs c = false := by
          revert hc
          cases isJsWs c <;> simp
        have hw_nonws : ∀ x ∈ c :: cs.takeWhile (fun x => !isJsWs x), isJsWs x = false := by
          intro x hx
          rcases List.mem_cons.mp hx with rfl | hx2
          · exact hc2
          · have h3 := List.mem_takeWhile_imp hx2
            revert h3
            cases isJsWs x <;> simp
        have hw_nospace : ∀ x ∈ c :: cs.takeWhile (fun x => !isJsWs x), x ≠ ' ' := by
          intro x hx heq
          have h4 := hw_nonws x hx
          rw [heq] at h4
          simp [isJsWs] at h4
        have hsplit : c :: cs =
            (c :: cs.takeWhile (fun x => !isJsWs x)) ++ cs.dropWhile (fun x => !isJsWs x) := by
          rw [List.cons_append, List.takeWhile_append_dropWhile]
        have hlen_r : (cs.dropWhile (fun x => !isJsWs x)).length ≤ n :=
          le_trans (length_dropWhile_le _ _) hcs
        rw [specTerms_cons_word c cs hc2]
        conv_lhs => rw [hsplit]
        rw [collapseWs_append_not_ws _ _ hw_nonws]
        have htrim : trimJs ((c :: cs.takeWhile (fun x => !isJsWs x)) ++
              collapseWs (cs.dropWhile (fun x => !isJsWs x))) =
            (c :: cs.takeWhile (fun x => !isJsWs x)) ++
              trimTrailing (collapseWs (cs.dropWhile (fun x => !isJsWs x))) := by
          show trimTrailing (((c :: cs.takeWhile (fun x => !isJsWs x)) ++
              collapseWs (cs.dropWhile (fun x => !isJsWs x))).dropWhile isJsWs) = _
          rw [List.cons_append, List.dropWhile_cons, if_neg (by simp [hc2]),
            ← List.cons_append]
          exact trimTrailing_append _ _ hw_nonws
        rw [htrim]
        cases hr : cs.dropWhile (fun x => !isJsWs x) with
        | nil =>
          rw [show trimTrailing (collapseWs ([] : List Char)) = [] from rfl,
            List.append_nil, specTerms_nil]
          have hsp := splitOnSpace_append_word (c :: cs.takeWhile (fun x => !isJsWs x))
            hw_nospace [] [] [] rfl
          rw [List.append_nil] at hsp
          rw [hsp]
          simp [List.filter]
        | cons d r2 =>
          have hd : isJsWs d = true := by
            have h5 := dropWhile_head_false _ cs d r2 hr
            revert h5
            cases isJsWs d <;> simp
          have hFq : trimJs (collapseWs (d :: r2)) =
              trimTrailing (collapseWs (r2.dropWhile isJsWs)) := by
            show trimTrailing ((collapseWs (d :: r2)).dropWhile isJsWs) = _
            rw [collapseWs_cons_ws d r2 hd, List.dropWhile_cons,
              if_pos (show isJsWs ' ' = true from rfl), dropWhile_collapseWs_dropWhile]
          have hF := ih (d :: r2) (hr ▸ hlen_r)
          rw [hFq] at hF
          rw [collapseWs_cons_ws d r2 hd, trimTrailing_space_cons]
          by_cases hT : trimTrailing (collapseWs (r2.dropWhile isJsWs)) = []
          · rw [if_pos hT, List.append_nil]
            rw [hT] at hF
            have hempty : specTerms (d :: r2) = [] := by
              rw [← hF]
              rfl
            rw [hempty]
            have hsp := splitOnSpace_append_word (c :: cs.takeWhile (fun x => !isJsWs x))
              hw_nospace [] [] [] rfl
            rw [List.append_nil] at hsp
            rw [hsp]
            simp [List.filter]
          · rw [if_neg hT]
            have hsp0 : splitOnSpace
                (' ' :: trimTrailing (collapseWs (r2.dropWhile isJsWs))) =
                [] :: splitOnSpace (trimTrailing (collapseWs (r2.dropWhile isJsWs))) := by
              simp [splitOnSpace]
            have hsp := splitOnSpace_append_word (c :: cs.takeWhile (fun x => !isJsWs x))
              hw_nospace _ [] _ hsp0
            rw [hsp, List.append_nil]
            rw [List.filter_cons, if_pos (by simp)]
            rw [hF]

/-- The source's quote-normalisation replace is the identity (its character
class holds only the straight double quote). -/
theorem normalizeQuotes_eq (l : List Char) : normalizeQuotes l = l := by
  unfold normalizeQuotes
  have h : (fun c : Char => if c = '"' then '"' else c) = fun c => c := by
    funext c
    split
    · rename_i h2
      rw [h2]
    · rfl
  rw [h]
  simp

/-- C9 (amended): for every query string, `sanitizeFtsQuery` builds exactly
the claim's predicate — strip the FTS5 operators, split into
whitespace-delimited terms, join quoted prefix matches with `OR` — with the
one amendment that double quotes inside a term are doubled (FTS5 string
escaping) before quoting. -/
theorem c9_sanitize_query (q : String) :
    sanitizeFtsQuery q = specFtsQueryEscaped q := by
  simp only [sanitizeFtsQuery, specFtsQueryEscaped]
  rw [normalizeQuotes_eq,
    codeTerms_eq_specTerms (stripSpecialChars q.data).length _ (le_refl _)]

/-- C9 counterexample: on the query `a"b` the built predicate is
`"a""b"*` (the inner quote is doubled), not the `"a"b"*` of the claim's
literal recipe. -/
theorem c9_counterexample :
    sanitizeFtsQuery "a\"b" = "\"a\"\"b\"*" ∧
    specFtsQueryLiteral "a\"b" = "\"a\"b\"*" ∧
    sanitizeFtsQuery "a\"b" ≠ specFtsQueryLiteral "a\"b" := by
  decide

end AzureUpdates
